import Mathlib

/-!
# Verification of the JavaScript-HTML5-Canvas-Particle-System core

Shallow embedding of `src/js/particles.js`. JavaScript numbers are modelled
as exact rationals (`ℚ`); `Math.random()` results are passed in explicitly
as rational parameters; the mutable particle array becomes a `List Particle`
threaded through the operations (`push` appends at the back, `shift` removes
the front, so list order is spawn order); the shared 2D canvas context
becomes an explicit `Ctx` value recording the drawing state, the
save/restore stack, and the chronological list of emitted drawing commands.
-/

/-- A `{x, y}` pair as used for positions, sizes, velocities and origins. -/
structure Vec2 where
  x : ℚ
  y : ℚ
deriving DecidableEq, Repr

/-- A `{r, g, b, a}` color object. -/
structure Rgba where
  r : ℚ
  g : ℚ
  b : ℚ
  a : ℚ
deriving DecidableEq, Repr

/-- One particle: `function Particle(xypos, xysize, rgbacolor, speed)`
(lines 113-118). -/
structure Particle where
  pos : Vec2
  size : Vec2
  color : Rgba
  velocity : Vec2
deriving DecidableEq, Repr

/-- The `Particle` constructor (lines 113-118).  `randx`/`randy` stand for
the two independent `Math.random()` draws; the velocity is
`(random - 0.5) * speed` per axis. -/
def Particle.spawn (xypos xysize : Vec2) (rgbacolor : Rgba) (speed : ℚ)
    (randx randy : ℚ) : Particle :=
  { pos := xypos
    size := xysize
    color := rgbacolor
    velocity := { x := (randx - 1/2) * speed, y := (randy - 1/2) * speed } }

/-- Body of the loop in `DefaultParticleAnimator.prototype.update`
(lines 137-143): `pos += velocity`, `size *= 0.98` on both axes. -/
def DefaultParticleAnimator.updateOne (p : Particle) : Particle :=
  { p with
    pos := { x := p.pos.x + p.velocity.x, y := p.pos.y + p.velocity.y }
    size := { x := p.size.x * (98/100), y := p.size.y * (98/100) } }

/-- `DefaultParticleAnimator.prototype.update` (lines 136-144): the loop
applies `updateOne` to every particle in place. -/
def DefaultParticleAnimator.update (particles : List Particle) : List Particle :=
  particles.map DefaultParticleAnimator.updateOne

/-- Body of the loop in `FancyParticleAnimator.prototype.update`
(lines 172-182): same position/size step as the default animator, plus
`a *= 0.99`, `r *= 1.02`, `b *= 0.98`, `g *= 0.98`. -/
def FancyParticleAnimator.updateOne (p : Particle) : Particle :=
  { p with
    pos := { x := p.pos.x + p.velocity.x, y := p.pos.y + p.velocity.y }
    size := { x := p.size.x * (98/100), y := p.size.y * (98/100) }
    color := { r := p.color.r * (102/100)
               g := p.color.g * (98/100)
               b := p.color.b * (98/100)
               a := p.color.a * (99/100) } }

/-- `FancyParticleAnimator.prototype.update` (lines 171-183). -/
def FancyParticleAnimator.update (particles : List Particle) : List Particle :=
  particles.map FancyParticleAnimator.updateOne

/-- Which animator strategy instance the system currently holds. -/
inductive AnimatorKind where
  | defaultAnimator
  | fancyAnimator
deriving DecidableEq, Repr

/-- Which renderer strategy instance the system currently holds. -/
inductive RendererKind where
  | squareRenderer
  | roundRenderer
deriving DecidableEq, Repr

/-- Dispatch of `this.particleAnimator.update(particles)` (line 61). -/
def ParticleAnimator.update : AnimatorKind → List Particle → List Particle
  | .defaultAnimator, ps => DefaultParticleAnimator.update ps
  | .fancyAnimator, ps => FancyParticleAnimator.update ps

/-- `Math.round`: round half toward positive infinity. -/
def jsRound (q : ℚ) : ℤ := ⌊q + 1/2⌋

/-- `rgbaToString` (lines 248-255): `'rgba(' + Math.round(r) + ', ' + ... +
a + ')'`.  Alpha is passed through unrounded; its textual rendering uses the
rational `toString` (this differs from JS float formatting only in notation,
e.g. `1/2` for `0.5`, and no claim depends on the alpha digits). -/
def rgbaToString (color : Rgba) : String :=
  "rgba(" ++ toString (jsRound color.r) ++ ", " ++
    toString (jsRound color.g) ++ ", " ++
    toString (jsRound color.b) ++ ", " ++
    toString color.a ++ ")"

/-- The mutable fields of the configuration object built in the
`ParticleSystem` constructor (lines 13-26). -/
structure PSConfig where
  autoResize : Bool
  backgroundColor : Rgba
  maxParticles : ℕ
  particlesPerUpdate : ℕ
  particleSpeed : ℚ
  particleSize : Vec2
  particleColor : Rgba
  particleOrigin : Vec2
  particleRenderer : RendererKind
  particleAnimator : AnimatorKind
deriving DecidableEq, Repr

/-- The constructor defaults (lines 13-26). -/
def PSConfig.defaults : PSConfig :=
  { autoResize := false
    backgroundColor := { r := 0, g := 0, b := 0, a := 1 }
    maxParticles := 500
    particlesPerUpdate := 1
    particleSpeed := 0
    particleSize := { x := 1, y := 1 }
    particleColor := { r := 255, g := 255, b := 255, a := 1 }
    particleOrigin := { x := 1/2, y := 1/2 }
    particleRenderer := .roundRenderer
    particleAnimator := .defaultAnimator }

/-- The spawn loop of `ParticleSystem.prototype.update` (lines 62-71):
recompute the absolute origin `{width * ox, height * oy}` and build
`particlesPerUpdate` fresh particles from deep copies of the templates.
`rand i` gives the two `Math.random()` draws of the `i`-th spawn. -/
def ParticleSystem.spawnBatch (cfg : PSConfig) (width height : ℚ)
    (rand : ℕ → ℚ × ℚ) : List Particle :=
  (List.range cfg.particlesPerUpdate).map fun i =>
    Particle.spawn { x := width * cfg.particleOrigin.x, y := height * cfg.particleOrigin.y }
      cfg.particleSize cfg.particleColor cfg.particleSpeed (rand i).1 (rand i).2

/-- The trimming loop of `ParticleSystem.prototype.update` (lines 73-74):
`while (particles.length > this.maxParticles) particles.shift();` —
each iteration removes the front (earliest-spawned) element. -/
def trim (maxParticles : ℕ) : List Particle → List Particle
  | [] => []
  | p :: rest =>
      if maxParticles < (p :: rest).length then trim maxParticles rest
      else p :: rest

/-- `ParticleSystem.prototype.update` (lines 60-75): age the existing
particles with the active animator, append the spawn batch, then trim from
the front down to the cap. -/
def ParticleSystem.update (cfg : PSConfig) (width height : ℚ)
    (rand : ℕ → ℚ × ℚ) (particles : List Particle) : List Particle :=
  trim cfg.maxParticles
    (ParticleAnimator.update cfg.particleAnimator particles ++
      ParticleSystem.spawnBatch cfg width height rand)

/-- `n` consecutive calls to `update()` starting from the empty collection,
with a fixed configuration and fixed cached dimensions; `rands n` supplies
the random draws of tick `n`. -/
def ParticleSystem.ticks (cfg : PSConfig) (width height : ℚ)
    (rands : ℕ → ℕ → ℚ × ℚ) : ℕ → List Particle
  | 0 => []
  | n + 1 =>
      ParticleSystem.update cfg width height (rands n)
        (ParticleSystem.ticks cfg width height rands n)

/-! ## Length lemmas for the update pipeline -/

theorem trim_eq_drop (m : ℕ) (ps : List Particle) :
    trim m ps = ps.drop (ps.length - m) := by
  induction ps with
  | nil => simp [trim]
  | cons p rest ih =>
      rw [trim]
      by_cases h : m < (p :: rest).length
      · rw [if_pos h, ih]
        have hlen : (p :: rest).length - m = (rest.length - m) + 1 := by
          simp only [List.length_cons] at h ⊢
          omega
        rw [hlen, List.drop_succ_cons]
      · rw [if_neg h]
        have hlen : (p :: rest).length - m = 0 := by
          simp only [List.length_cons] at h ⊢
          omega
        rw [hlen, List.drop_zero]

theorem trim_length (m : ℕ) (ps : List Particle) :
    (trim m ps).length = min ps.length m := by
  rw [trim_eq_drop, List.length_drop]
  omega

theorem animatorUpdate_length (a : AnimatorKind) (ps : List Particle) :
    (ParticleAnimator.update a ps).length = ps.length := by
  cases a <;>
    simp [ParticleAnimator.update, DefaultParticleAnimator.update,
      FancyParticleAnimator.update]

theorem ParticleSystem.spawnBatch_length (cfg : PSConfig) (width height : ℚ)
    (rand : ℕ → ℚ × ℚ) :
    (ParticleSystem.spawnBatch cfg width height rand).length = cfg.particlesPerUpdate := by
  simp [ParticleSystem.spawnBatch]

theorem systemUpdate_length (cfg : PSConfig) (width height : ℚ)
    (rand : ℕ → ℚ × ℚ) (ps : List Particle) :
    (ParticleSystem.update cfg width height rand ps).length
      = min (ps.length + cfg.particlesPerUpdate) cfg.maxParticles := by
  rw [ParticleSystem.update, trim_length, List.length_append,
    animatorUpdate_length, ParticleSystem.spawnBatch_length]

/-! ## Canvas context model

The shared `context` global becomes an explicit value: the current drawing
state, the `save`/`restore` stack, and the chronological list of drawing
commands issued so far.  A fill command records the `fillStyle` in force
when it was issued, which is what determines the painted color. -/

/-- One drawing command issued to the 2D context. -/
inductive CanvasOp where
  | clearRect (x y w h : ℚ)
  | fillRect (style : String) (x y w h : ℚ)
  | beginPath
  | arc (cx cy radius : ℚ)
  | fill (style : String)
deriving DecidableEq, Repr

/-- The part of the 2D context state the program reads or writes. -/
structure CanvasState where
  fillStyle : String
  globalCompositeOperation : String
deriving DecidableEq, Repr

/-- The 2D context: current state, save/restore stack, emitted commands. -/
structure Ctx where
  state : CanvasState
  stack : List CanvasState
  ops : List CanvasOp
deriving DecidableEq, Repr

/-- A freshly acquired context (canvas defaults). -/
def Ctx.fresh : Ctx :=
  { state := { fillStyle := "#000000", globalCompositeOperation := "source-over" }
    stack := []
    ops := [] }

/-- `context.fillStyle = s`. -/
def Ctx.setFillStyle (s : String) (ctx : Ctx) : Ctx :=
  { ctx with state := { ctx.state with fillStyle := s } }

/-- `context.globalCompositeOperation = s`. -/
def Ctx.setComposite (s : String) (ctx : Ctx) : Ctx :=
  { ctx with state := { ctx.state with globalCompositeOperation := s } }

/-- `context.save()`: push the current state. -/
def Ctx.save (ctx : Ctx) : Ctx :=
  { ctx with stack := ctx.state :: ctx.stack }

/-- `context.restore()`: pop the stack into the current state; a no-op on an
empty stack, per the canvas specification. -/
def Ctx.restore (ctx : Ctx) : Ctx :=
  match ctx.stack with
  | [] => ctx
  | s :: rest => { ctx with state := s, stack := rest }

/-- Record one drawing command. -/
def Ctx.emit (op : CanvasOp) (ctx : Ctx) : Ctx :=
  { ctx with ops := ctx.ops ++ [op] }

/-- `context.clearRect(x, y, w, h)`. -/
def Ctx.clearRect (x y w h : ℚ) (ctx : Ctx) : Ctx :=
  Ctx.emit (.clearRect x y w h) ctx

/-- `context.fillRect(x, y, w, h)`: fills with the current `fillStyle`. -/
def Ctx.fillRect (x y w h : ℚ) (ctx : Ctx) : Ctx :=
  Ctx.emit (.fillRect ctx.state.fillStyle x y w h) ctx

/-- `SquareParticleRenderer.prototype.draw` (lines 210-213). -/
def SquareParticleRenderer.draw (particle : Particle) (ctx : Ctx) : Ctx :=
  Ctx.fillRect particle.pos.x particle.pos.y particle.size.x particle.size.y
    (Ctx.setFillStyle (rgbaToString particle.color) ctx)

/-- `RoundParticleRenderer.prototype.draw` (lines 225-236): `beginPath`, set
the fill style, `arc` at `pos + radius` with `radius = max(size.x, size.y)/2`
(sweeping the full circle), `fill`. -/
def RoundParticleRenderer.draw (particle : Particle) (ctx : Ctx) : Ctx :=
  let ctx := Ctx.emit .beginPath ctx
  let ctx := Ctx.setFillStyle (rgbaToString particle.color) ctx
  let radius := max particle.size.x particle.size.y / 2
  let ctx := Ctx.emit (.arc (particle.pos.x + radius) (particle.pos.y + radius) radius) ctx
  Ctx.emit (.fill ctx.state.fillStyle) ctx

/-- Dispatch of `particleRenderer.draw(particle)`. -/
def ParticleRenderer.draw : RendererKind → Particle → Ctx → Ctx
  | .squareRenderer, p, ctx => SquareParticleRenderer.draw p ctx
  | .roundRenderer, p, ctx => RoundParticleRenderer.draw p ctx

/-- `DefaultParticleAnimator.prototype.draw` (lines 151-154): sequential
per-particle draw, no global mode change. -/
def DefaultParticleAnimator.draw (particles : List Particle) (r : RendererKind)
    (ctx : Ctx) : Ctx :=
  particles.foldl (fun c p => ParticleRenderer.draw r p c) ctx

/-- `FancyParticleAnimator.prototype.draw` (lines 190-194): set the
composite mode to `'lighter'`, then draw sequentially. -/
def FancyParticleAnimator.draw (particles : List Particle) (r : RendererKind)
    (ctx : Ctx) : Ctx :=
  particles.foldl (fun c p => ParticleRenderer.draw r p c)
    (Ctx.setComposite "lighter" ctx)

/-- Dispatch of `this.particleAnimator.draw(particles, renderer)` (line 86). -/
def ParticleAnimator.draw : AnimatorKind → List Particle → RendererKind → Ctx → Ctx
  | .defaultAnimator, ps, r, ctx => DefaultParticleAnimator.draw ps r ctx
  | .fancyAnimator, ps, r, ctx => FancyParticleAnimator.draw ps r ctx

/-- `ParticleSystem.prototype.initialize` (lines 36-42): after binding the
canvas and caching dimensions (the dimensions are modelled as parameters of
`update`/`draw`), it primes `context.fillStyle` with the configured
background color and saves the context state. -/
def ParticleSystem.initCanvas (cfg : PSConfig) (ctx : Ctx) : Ctx :=
  Ctx.save (Ctx.setFillStyle (rgbaToString cfg.backgroundColor) ctx)

/-- `ParticleSystem.prototype.draw` (lines 80-87): `restore`, clear the full
surface, fill the full surface with the current `fillStyle`, `save`, then
delegate to the active animator. -/
def ParticleSystem.draw (cfg : PSConfig) (width height : ℚ)
    (particles : List Particle) (ctx : Ctx) : Ctx :=
  let ctx := Ctx.restore ctx
  let ctx := Ctx.clearRect 0 0 width height ctx
  let ctx := Ctx.fillRect 0 0 width height ctx
  let ctx := Ctx.save ctx
  ParticleAnimator.draw cfg.particleAnimator particles cfg.particleRenderer ctx

/-! ## Pointer-to-surface coordinate mapping -/

/-- The fields of a mouse/touch event read by `getCanvasPos`. -/
structure MouseEvent where
  clientX : ℚ
  clientY : ℚ
deriving DecidableEq, Repr

/-- The fields of the canvas element read by `getCanvasPos`. -/
structure CanvasGeom where
  offsetLeft : ℚ
  offsetTop : ℚ
  width : ℚ
  height : ℚ
deriving DecidableEq, Repr

/-- `getCanvasPos` (lines 263-270): subtract the canvas offset from the
client coordinates and divide by the canvas dimensions. -/
def getCanvasPos (mouseevent : MouseEvent) (canvas : CanvasGeom) : Vec2 :=
  { x := (mouseevent.clientX - canvas.offsetLeft) / canvas.width
    y := (mouseevent.clientY - canvas.offsetTop) / canvas.height }

/-! ## Sample concrete values used by witnesses -/

/-- A concrete particle for witnesses. -/
def pA : Particle :=
  { pos := { x := 0, y := 0 }, size := { x := 1, y := 1 }
    color := { r := 255, g := 255, b := 255, a := 1 }
    velocity := { x := 0, y := 0 } }

/-- A second concrete particle for witnesses. -/
def pB : Particle :=
  { pos := { x := 3, y := 4 }, size := { x := 2, y := 2 }
    color := { r := 10, g := 20, b := 30, a := 1/2 }
    velocity := { x := 1, y := -1 } }

/-! ## Claims -/

/-- C1: starting from the empty collection with a fixed configuration
(`particlesPerUpdate` and `maxParticles` fixed non-negative integers), after
`n` calls to `ParticleSystem.update()` the live particle count equals
`min (n * particlesPerUpdate) maxParticles`. -/
theorem C1_live_count_after_n_ticks (cfg : PSConfig) (width height : ℚ)
    (rands : ℕ → ℕ → ℚ × ℚ) (n : ℕ) :
    (ParticleSystem.ticks cfg width height rands n).length
      = min (n * cfg.particlesPerUpdate) cfg.maxParticles := by
  induction n with
  | zero => simp [ParticleSystem.ticks]
  | succ n ih =>
      rw [ParticleSystem.ticks, systemUpdate_length, ih, Nat.succ_mul]
      generalize n * cfg.particlesPerUpdate = A
      omega

/-- C2: after every call to `ParticleSystem.update()`, from any state, the
live particle count is at most `maxParticles` — even when
`particlesPerUpdate` alone exceeds `maxParticles` in one call — and the cap
is enforced only after the spawn batch: the pre-trim collection holds all
`particlesPerUpdate` new particles on top of the aged ones. -/
theorem C2_cap_invariant (cfg : PSConfig) (width height : ℚ)
    (rand : ℕ → ℚ × ℚ) (ps : List Particle) :
    (ParticleSystem.update cfg width height rand ps).length ≤ cfg.maxParticles ∧
    (ParticleAnimator.update cfg.particleAnimator ps ++
        ParticleSystem.spawnBatch cfg width height rand).length
      = ps.length + cfg.particlesPerUpdate := by
  constructor
  · rw [systemUpdate_length]
    omega
  · rw [List.length_append, animatorUpdate_length,
      ParticleSystem.spawnBatch_length]

/-- C3: eviction is strictly FIFO.  Each trimming step of the `while` loop
removes the front of the collection, i.e. the earliest-spawned live particle
(`trim m (p :: rest) = trim m rest` whenever the cap is exceeded); nothing
is removed when the population is within the cap; the trimmed collection is
exactly the original minus its oldest `length - maxParticles` elements; and
`ParticleSystem.update` evicts with this loop from a collection whose order
is spawn order (aged originals first, then the new batch at the back). -/
theorem C3_fifo_eviction (m : ℕ) (ps : List Particle) (cfg : PSConfig)
    (width height : ℚ) (rand : ℕ → ℚ × ℚ) (qs : List Particle) :
    (m < ps.length → trim m ps = trim m ps.tail) ∧
    (ps.length ≤ m → trim m ps = ps) ∧
    trim m ps = ps.drop (ps.length - m) ∧
    ParticleSystem.update cfg width height rand qs
      = trim cfg.maxParticles
          (ParticleAnimator.update cfg.particleAnimator qs ++
            ParticleSystem.spawnBatch cfg width height rand) := by
  refine ⟨?_, ?_, trim_eq_drop m ps, rfl⟩
  · intro h
    cases ps with
    | nil => simp at h
    | cons p rest => rw [trim, if_pos h, List.tail_cons]
  · intro h
    cases ps with
    | nil => simp [trim]
    | cons p rest => rw [trim, if_neg (by omega)]

/-- Witness for C3 at concrete inputs: with a cap of 1, trimming `[pA, pB]`
steps to trimming `[pB]` (the earliest-spawned `pA` is the one evicted), and
with a cap of 2 nothing is evicted. -/
theorem C3_fifo_eviction_witness :
    trim 1 [pA, pB] = trim 1 [pB] ∧ trim 2 [pA, pB] = [pA, pB] := by
  constructor
  · exact (C3_fifo_eviction 1 [pA, pB] PSConfig.defaults 0 0 (fun _ => (0, 0)) []).1
      (by decide)
  · exact (C3_fifo_eviction 2 [pA, pB] PSConfig.defaults 0 0 (fun _ => (0, 0)) []).2.1
      (by decide)

/-- C10: the default animator's update step leaves every particle's color
completely unchanged (all four channels), both per particle and across a
whole collection. -/
theorem C10_default_keeps_color :
    (∀ p : Particle, (DefaultParticleAnimator.updateOne p).color = p.color) ∧
    (∀ ps : List Particle,
      (DefaultParticleAnimator.update ps).map Particle.color = ps.map Particle.color) := by
  constructor
  · intro p
    rfl
  · intro ps
    simp [DefaultParticleAnimator.update, DefaultParticleAnimator.updateOne]

/-! ## Iteration lemmas for the animators -/

theorem iterate_map_particles (f : Particle → Particle) (k : ℕ) (ps : List Particle) :
    (List.map f)^[k] ps = ps.map (f^[k]) := by
  induction k generalizing ps with
  | zero => simp
  | succ k ih =>
      rw [Function.iterate_succ_apply, ih, List.map_map, ← Function.iterate_succ]

theorem default_size_iterate (p : Particle) (k : ℕ) :
    (DefaultParticleAnimator.updateOne^[k] p).size
      = { x := p.size.x * (98/100) ^ k, y := p.size.y * (98/100) ^ k } := by
  induction k with
  | zero => simp
  | succ k ih =>
      rw [Function.iterate_succ_apply']
      simp only [DefaultParticleAnimator.updateOne, ih, Vec2.mk.injEq, pow_succ]
      constructor <;> ring

theorem fancy_color_iterate (p : Particle) (k : ℕ) :
    (FancyParticleAnimator.updateOne^[k] p).color
      = { r := p.color.r * (102/100) ^ k, g := p.color.g * (98/100) ^ k
          b := p.color.b * (98/100) ^ k, a := p.color.a * (99/100) ^ k } := by
  induction k with
  | zero => simp
  | succ k ih =>
      rw [Function.iterate_succ_apply']
      simp only [FancyParticleAnimator.updateOne, ih, Rgba.mk.injEq, pow_succ]
      refine ⟨by ring, by ring, by ring, by ring⟩

/-- C4: under the default animator each step adds the velocity to the
position and multiplies both size axes by exactly `0.98`; the list update is
the per-particle step applied pointwise, so a particle at any position of
the collection across `k` consecutive updates has size `s₀ * 0.98 ^ k` on
each axis independently. -/
theorem C4_default_size_decay :
    (∀ (ps : List Particle) (k : ℕ),
      DefaultParticleAnimator.update^[k] ps
        = ps.map (DefaultParticleAnimator.updateOne^[k])) ∧
    (∀ p : Particle,
      (DefaultParticleAnimator.updateOne p).pos
        = { x := p.pos.x + p.velocity.x, y := p.pos.y + p.velocity.y }) ∧
    (∀ (p : Particle) (k : ℕ),
      (DefaultParticleAnimator.updateOne^[k] p).size
        = { x := p.size.x * (98/100) ^ k, y := p.size.y * (98/100) ^ k }) := by
  refine ⟨?_, fun p => rfl, default_size_iterate⟩
  intro ps k
  exact iterate_map_particles DefaultParticleAnimator.updateOne k ps

/-- C5: the fancy animator performs the same position and size step as the
default animator and additionally multiplies alpha by `0.99`, red by `1.02`
and green/blue by `0.98` with no clamping, so after `k` consecutive steps
`a = a₀ * 0.99 ^ k`, `r = r₀ * 1.02 ^ k`, `g = g₀ * 0.98 ^ k`,
`b = b₀ * 0.98 ^ k`. -/
theorem C5_fancy_color_evolution :
    (∀ p : Particle,
      (FancyParticleAnimator.updateOne p).pos = (DefaultParticleAnimator.updateOne p).pos ∧
      (FancyParticleAnimator.updateOne p).size = (DefaultParticleAnimator.updateOne p).size) ∧
    (∀ p : Particle,
      (FancyParticleAnimator.updateOne p).color
        = { r := p.color.r * (102/100), g := p.color.g * (98/100)
            b := p.color.b * (98/100), a := p.color.a * (99/100) }) ∧
    (∀ (ps : List Particle) (k : ℕ),
      FancyParticleAnimator.update^[k] ps
        = ps.map (FancyParticleAnimator.updateOne^[k])) ∧
    (∀ (p : Particle) (k : ℕ),
      (FancyParticleAnimator.updateOne^[k] p).color
        = { r := p.color.r * (102/100) ^ k, g := p.color.g * (98/100) ^ k
            b := p.color.b * (98/100) ^ k, a := p.color.a * (99/100) ^ k }) := by
  refine ⟨fun p => ⟨rfl, rfl⟩, fun p => rfl, ?_, fancy_color_iterate⟩
  intro ps k
  exact iterate_map_particles FancyParticleAnimator.updateOne k ps

/-- C6: within one `ParticleSystem.update()` call the animator ages only the
particles that existed before the call; every particle of the spawn batch
still carries, at the end of the call, the recomputed spawn origin as its
position and the configured size and color templates unchanged. -/
theorem C6_spawned_not_aged (cfg : PSConfig) (width height : ℚ)
    (rand : ℕ → ℚ × ℚ) (particles : List Particle) :
    (ParticleSystem.update cfg width height rand particles
      = trim cfg.maxParticles
          (ParticleAnimator.update cfg.particleAnimator particles ++
            ParticleSystem.spawnBatch cfg width height rand)) ∧
    ∀ p ∈ ParticleSystem.spawnBatch cfg width height rand,
      p.pos = { x := width * cfg.particleOrigin.x, y := height * cfg.particleOrigin.y } ∧
      p.size = cfg.particleSize ∧ p.color = cfg.particleColor := by
  refine ⟨rfl, ?_⟩
  intro p hp
  rw [ParticleSystem.spawnBatch, List.mem_map] at hp
  obtain ⟨i, _, rfl⟩ := hp
  exact ⟨rfl, rfl, rfl⟩

/-- The particle the default configuration spawns on a 200×100 surface with
both random draws equal to 0. -/
def pSpawned : Particle :=
  Particle.spawn { x := 100, y := 50 } PSConfig.defaults.particleSize
    PSConfig.defaults.particleColor PSConfig.defaults.particleSpeed 0 0

/-- Witness for C6: on a 200×100 surface under the default configuration the
spawned particle ends the call at the recomputed origin with the template
size and color. -/
theorem C6_spawned_not_aged_witness :
    pSpawned.pos = { x := (200 : ℚ) * PSConfig.defaults.particleOrigin.x,
                     y := (100 : ℚ) * PSConfig.defaults.particleOrigin.y } ∧
    pSpawned.size = PSConfig.defaults.particleSize ∧
    pSpawned.color = PSConfig.defaults.particleColor := by
  refine (C6_spawned_not_aged PSConfig.defaults 200 100 (fun _ => (0, 0)) []).2
    pSpawned ?_
  rw [ParticleSystem.spawnBatch, List.mem_map]
  refine ⟨0, by simp [PSConfig.defaults], ?_⟩
  norm_num [Particle.spawn, PSConfig.defaults, pSpawned, Vec2.mk.injEq]

/-- C7: the velocity is fixed at spawn time to `(random - 0.5) * speed` per
axis from the speed scalar in force at the spawn, and neither animator's
update step ever changes it, over any number of consecutive steps.  (Drawing
is modelled as a pure transformation of the canvas context — the renderers
and animators perform no particle writes in `draw`, matching the source.) -/
theorem C7_velocity_immutable :
    (∀ (xypos xysize : Vec2) (rgbacolor : Rgba) (speed randx randy : ℚ),
      (Particle.spawn xypos xysize rgbacolor speed randx randy).velocity
        = { x := (randx - 1/2) * speed, y := (randy - 1/2) * speed }) ∧
    (∀ (p : Particle) (k : ℕ),
      (DefaultParticleAnimator.updateOne^[k] p).velocity = p.velocity) ∧
    (∀ (p : Particle) (k : ℕ),
      (FancyParticleAnimator.updateOne^[k] p).velocity = p.velocity) := by
  refine ⟨fun _ _ _ _ _ _ => rfl, ?_, ?_⟩
  · intro p k
    induction k with
    | zero => rfl
    | succ k ih =>
        rw [Function.iterate_succ_apply']
        exact ih
  · intro p k
    induction k with
    | zero => rfl
    | succ k ih =>
        rw [Function.iterate_succ_apply']
        exact ih

/-! ## Drawing emits commands without touching the save/restore stack -/

theorem rendererDraw_ops (r : RendererKind) (p : Particle) (ctx : Ctx) :
    ∃ l, (ParticleRenderer.draw r p ctx).ops = ctx.ops ++ l ∧
      (ParticleRenderer.draw r p ctx).stack = ctx.stack := by
  cases r with
  | squareRenderer => exact ⟨_, rfl, rfl⟩
  | roundRenderer =>
      refine ⟨[CanvasOp.beginPath,
        CanvasOp.arc (p.pos.x + max p.size.x p.size.y / 2)
          (p.pos.y + max p.size.x p.size.y / 2) (max p.size.x p.size.y / 2),
        CanvasOp.fill (rgbaToString p.color)], ?_, rfl⟩
      simp [ParticleRenderer.draw, RoundParticleRenderer.draw, Ctx.emit,
        Ctx.setFillStyle]

theorem foldl_rendererDraw_ops (r : RendererKind) (ps : List Particle) (ctx : Ctx) :
    ∃ l, (ps.foldl (fun c p => ParticleRenderer.draw r p c) ctx).ops = ctx.ops ++ l ∧
      (ps.foldl (fun c p => ParticleRenderer.draw r p c) ctx).stack = ctx.stack := by
  induction ps generalizing ctx with
  | nil => exact ⟨[], by simp, rfl⟩
  | cons p rest ih =>
      obtain ⟨l1, h1, h1s⟩ := rendererDraw_ops r p ctx
      obtain ⟨l2, h2, h2s⟩ := ih (ParticleRenderer.draw r p ctx)
      refine ⟨l1 ++ l2, ?_, ?_⟩
      · rw [List.foldl_cons, h2, h1, List.append_assoc]
      · rw [List.foldl_cons, h2s, h1s]

theorem animatorDraw_ops (a : AnimatorKind) (ps : List Particle)
    (r : RendererKind) (ctx : Ctx) :
    ∃ l, (ParticleAnimator.draw a ps r ctx).ops = ctx.ops ++ l ∧
      (ParticleAnimator.draw a ps r ctx).stack = ctx.stack := by
  cases a with
  | defaultAnimator => exact foldl_rendererDraw_ops r ps ctx
  | fancyAnimator =>
      obtain ⟨l, h, hs⟩ := foldl_rendererDraw_ops r ps (Ctx.setComposite "lighter" ctx)
      exact ⟨l, h, hs⟩

/-- The default configuration with its background color mutated to opaque
white after construction. -/
def cfgWhiteBg : PSConfig :=
  { PSConfig.defaults with backgroundColor := { r := 255, g := 255, b := 255, a := 1 } }

/-- Counterexample to C8 as stated: bind the canvas with the default (black)
background, then mutate `backgroundColor` to white before the next tick.
The next `draw()` still fills the full surface with the black fill style
restored from the context state saved by `initialize()`, and no command of
that draw uses the white background string at all — the mutation does not
take effect on the next tick's draw. -/
theorem C8_counterexample :
    (ParticleSystem.draw cfgWhiteBg 200 100 []
        (ParticleSystem.initCanvas PSConfig.defaults Ctx.fresh)).ops
      = [CanvasOp.clearRect 0 0 200 100,
         CanvasOp.fillRect (rgbaToString PSConfig.defaults.backgroundColor) 0 0 200 100] ∧
    rgbaToString PSConfig.defaults.backgroundColor ≠ rgbaToString cfgWhiteBg.backgroundColor ∧
    CanvasOp.fillRect (rgbaToString cfgWhiteBg.backgroundColor) 0 0 200 100 ∉
      (ParticleSystem.draw cfgWhiteBg 200 100 []
        (ParticleSystem.initCanvas PSConfig.defaults Ctx.fresh)).ops := by
  have h1 : (ParticleSystem.draw cfgWhiteBg 200 100 []
      (ParticleSystem.initCanvas PSConfig.defaults Ctx.fresh)).ops
      = [CanvasOp.clearRect 0 0 200 100,
         CanvasOp.fillRect (rgbaToString PSConfig.defaults.backgroundColor) 0 0 200 100] := rfl
  have e0 : rgbaToString PSConfig.defaults.backgroundColor = "rgba(0, 0, 0, 1)" := by
    have h : jsRound 0 = 0 := by rw [jsRound]; norm_num
    simp only [rgbaToString,
      show PSConfig.defaults.backgroundColor = ({ r := 0, g := 0, b := 0, a := 1 } : Rgba)
        from rfl, h]
    rfl
  have e1 : rgbaToString cfgWhiteBg.backgroundColor = "rgba(255, 255, 255, 1)" := by
    have h : jsRound 255 = 255 := by rw [jsRound]; norm_num
    simp only [rgbaToString,
      show cfgWhiteBg.backgroundColor = ({ r := 255, g := 255, b := 255, a := 1 } : Rgba)
        from rfl, h]
    rfl
  have h2 : rgbaToString PSConfig.defaults.backgroundColor
      ≠ rgbaToString cfgWhiteBg.backgroundColor := by
    rw [e0, e1]
    decide
  refine ⟨h1, h2, ?_⟩
  rw [h1]
  simp only [List.mem_cons, List.not_mem_nil, or_false, not_or]
  refine ⟨by simp, ?_⟩
  simp only [CanvasOp.fillRect.injEq, not_and]
  intro hstyle
  exact absurd hstyle.symm h2

/-- C8 amended: after `initialize()` has primed the fill style and saved the
context state, a subsequent `draw()` — with the configuration arbitrarily
mutated in the meantime, background color included — clears the full
surface and repaints it with the background color that was configured when
`initialize()` ran; mutating `backgroundColor` between ticks has no effect
on the next draw. -/
theorem C8_draw_uses_initial_background (cfg cfg2 : PSConfig) (width height : ℚ)
    (particles : List Particle) (ctx : Ctx) :
    ∃ rest,
      (ParticleSystem.draw cfg2 width height particles
          (ParticleSystem.initCanvas cfg ctx)).ops
        = ctx.ops ++
            (CanvasOp.clearRect 0 0 width height ::
              CanvasOp.fillRect (rgbaToString cfg.backgroundColor) 0 0 width height ::
                rest) := by
  obtain ⟨l, h, _⟩ := animatorDraw_ops cfg2.particleAnimator particles
    cfg2.particleRenderer
    (Ctx.save (Ctx.fillRect 0 0 width height
      (Ctx.clearRect 0 0 width height
        (Ctx.restore (ParticleSystem.initCanvas cfg ctx)))))
  refine ⟨l, ?_⟩
  rw [ParticleSystem.draw, h]
  simp [ParticleSystem.initCanvas, Ctx.save, Ctx.restore, Ctx.clearRect,
    Ctx.fillRect, Ctx.emit, Ctx.setFillStyle]

/-- Counterexample to C9 as stated: `getCanvasPos` performs no clamping, so
a pointer event left of and above a surface with offset (10,10) and
dimensions 200×100 yields a negative fraction, outside `[0,1]×[0,1]`. -/
theorem C9_counterexample :
    (getCanvasPos { clientX := 0, clientY := 0 }
        { offsetLeft := 10, offsetTop := 10, width := 200, height := 100 }).x
      = -(1/20) ∧
    ¬ (0 ≤ (getCanvasPos { clientX := 0, clientY := 0 }
        { offsetLeft := 10, offsetTop := 10, width := 200, height := 100 }).x) := by
  constructor <;> norm_num [getCanvasPos]

/-- C9 amended: `getCanvasPos` returns
`{x: (clientX − offsetLeft) / width, y: (clientY − offsetTop) / height}`;
the example event at viewport (110,60) over a surface with offset (10,10)
and dimensions 200×100 yields `{x: 0.5, y: 0.5}`; and the returned fractions
lie in `[0,1]×[0,1]` when (and only because) the event lies within the
surface's bounds — the helper itself never clamps. -/
theorem C9_coordinate_mapping (e : MouseEvent) (c : CanvasGeom) :
    getCanvasPos e c
      = { x := (e.clientX - c.offsetLeft) / c.width
          y := (e.clientY - c.offsetTop) / c.height } ∧
    getCanvasPos { clientX := 110, clientY := 60 }
        { offsetLeft := 10, offsetTop := 10, width := 200, height := 100 }
      = { x := 1/2, y := 1/2 } ∧
    (0 < c.width → c.offsetLeft ≤ e.clientX → e.clientX ≤ c.offsetLeft + c.width →
      0 ≤ (getCanvasPos e c).x ∧ (getCanvasPos e c).x ≤ 1) ∧
    (0 < c.height → c.offsetTop ≤ e.clientY → e.clientY ≤ c.offsetTop + c.height →
      0 ≤ (getCanvasPos e c).y ∧ (getCanvasPos e c).y ≤ 1) := by
  refine ⟨rfl, by norm_num [getCanvasPos, Vec2.mk.injEq], ?_, ?_⟩
  · intro hw h1 h2
    simp only [getCanvasPos]
    constructor
    · exact div_nonneg (by linarith) (le_of_lt hw)
    · rw [div_le_one hw]
      linarith
  · intro hh h1 h2
    simp only [getCanvasPos]
    constructor
    · exact div_nonneg (by linarith) (le_of_lt hh)
    · rw [div_le_one hh]
      linarith

/-- Witness for C9 at the spec's concrete example: the event at (110,60)
over the surface with offset (10,10) and dimensions 200×100 is within
bounds, and the returned fractions indeed lie in `[0,1]`. -/
theorem C9_coordinate_mapping_witness :
    (0 ≤ (getCanvasPos { clientX := 110, clientY := 60 }
        { offsetLeft := 10, offsetTop := 10, width := 200, height := 100 }).x ∧
      (getCanvasPos { clientX := 110, clientY := 60 }
        { offsetLeft := 10, offsetTop := 10, width := 200, height := 100 }).x ≤ 1) ∧
    (0 ≤ (getCanvasPos { clientX := 110, clientY := 60 }
        { offsetLeft := 10, offsetTop := 10, width := 200, height := 100 }).y ∧
      (getCanvasPos { clientX := 110, clientY := 60 }
        { offsetLeft := 10, offsetTop := 10, width := 200, height := 100 }).y ≤ 1) := by
  have h := C9_coordinate_mapping { clientX := 110, clientY := 60 }
    { offsetLeft := 10, offsetTop := 10, width := 200, height := 100 }
  exact ⟨h.2.2.1 (by norm_num) (by norm_num) (by norm_num),
    h.2.2.2 (by norm_num) (by norm_num) (by norm_num)⟩
